import Mathlib

/-!
Shallow embedding of `mlprocess.py` (multi-label adverse-drug-reaction
pipeline) and verification of the frozen claims about it.

Conventions of the embedding:

* A pandas `DataFrame` of features is modelled column-major as an ordered
  association list of named columns (`Mat`): `df.loc[:, cols]` is selection
  of named columns, `pd.concat(axis=1)` is list append.
* A numpy 2-d array (as consumed by the imblearn/sklearn calls after
  `np.asarray`) is modelled row-major as `List (List ℚ)`.
* Python dictionaries keyed by label name are association lists
  (`Dic α := List (String × α)`) read with `List.lookup`; the source loops
  that initialise a dictionary over `out_names` and then assign each key
  once are modelled as building the association list in loop order.
* Numeric feature values are `ℚ`; binary class labels are `Nat` (0/1 in the
  data, but the embedding does not need to restrict them).
* Calls into scikit-learn / imblearn are modelled from those libraries'
  documented, stable behaviour, since the repository's functions are thin
  orchestrations around them; each such model carries a doc comment naming
  the library function and the behaviour modelled.  Purely numeric
  floating-point internals (ANOVA F scores, SMOTE interpolation, metric
  values) are abstracted as explicit function parameters: the claims under
  verification are about data flow, shape, counts and error behaviour,
  never about particular floating-point values.
* Functions that `print` a diagnostic return the printed lines alongside
  their result; functions that can raise return `Except String`.
-/

namespace MLProcess

/-- Association-list model of a Python dictionary keyed by label name. -/
abbrev Dic (α : Type) := List (String × α)

/-- Column-major model of a pandas feature DataFrame: ordered, named
columns of rational entries. -/
abbrev Mat := List (String × List ℚ)

/-- Column names of a matrix, in order (pandas `df.columns`). -/
def colNames (m : Mat) : List String := m.map Prod.fst

/-- Model of `df.loc[:, mask].columns.to_list()`: the names of the columns
at the `true` positions of a boolean support mask (pandas boolean column
indexing keeps column order). -/
def maskCols (m : Mat) (mask : List Bool) : List String :=
  ((m.zip mask).filter (fun p => p.2)).map (fun p => p.1.1)

/-- Model of `df.loc[:, sel]` for a list of column names: the named
columns, in the order of `sel` (in the source `sel` always comes from
`maskCols` on the same matrix, so every lookup succeeds; a missing name is
given the empty column). -/
def selectCols (m : Mat) (sel : List String) : Mat :=
  sel.map (fun c => (c, (m.lookup c).getD []))

/-- Model of `pd.concat([a, b], axis=1)`: columns of `a` followed by
columns of `b`. -/
def hcat (a b : Mat) : Mat := a ++ b

/-- Sequential per-label loop with exception propagation: run `f` on each
label in order, stopping at the first raised exception, and collect the
per-label results into an association list (the shape shared by the
source's dictionary-building loops). -/
def forLabels {β : Type} (f : String → Except String β) :
    List String → Except String (List (String × β))
  | [] => .ok []
  | n :: rest =>
    match f n with
    | .error e => .error e
    | .ok b =>
      match forLabels f rest with
      | .error e => .error e
      | .ok tail => .ok ((n, b) :: tail)

section Selector

/- Abstract model of a fitted `SelectKBest(score_func, k).get_support()`
boolean mask: a function of the training matrix and the training target
vector only (`SelectKBest.fit(X, y)` receives nothing else).  The numeric
ANOVA scoring is floating point and is not modelled; every theorem below
holds for an arbitrary support function. -/
variable (skb : Mat → List ℚ → List Bool)

/-- Embedding of `select_best_descriptors` (mlprocess.py lines 189-195):
fit `SelectKBest`, read the support mask, return the names of the selected
columns; the source `assert sel` raises `AssertionError` when the
selection is empty. -/
def select_best_descriptors (X : Mat) (y : List ℚ) : Except String (List String) :=
  let sel := maskCols X (skb X y)
  if sel.isEmpty then .error "AssertionError" else .ok sel

/-- Inner accumulation of `select_best_descriptors_multi` (lines 183-185):
`for s in sel: if s not in selected: selected.append(s)`. -/
def appendNew (selected : List String) (sel : List String) : List String :=
  sel.foldl (fun acc s => if s ∈ acc then acc else acc ++ [s]) selected

/-- Embedding of `select_best_descriptors_multi` (lines 173-186).  Returns
the result (`none` models Python `None`) together with the list of printed
diagnostic lines.  `y_all` is the label DataFrame read column-wise. -/
def select_best_descriptors_multi (df_desc : Mat) (y_all : String → List ℚ)
    (out_names : List String) : Option (List String) × List String :=
  if out_names.isEmpty then (none, ["Column names necessary"])
  else
    (some (out_names.foldl
      (fun selected n => appendNew selected (maskCols df_desc (skb df_desc (y_all n)))) []),
     [])

/-- Embedding of `create_dataframes_dic` (lines 198-222).  For each label:
select descriptor columns from the training descriptor matrix and the
label's training target, record them, build the train matrix
`fingerprints ++ selected train descriptors` and the test matrix
`fingerprints ++ the same selected columns of the test descriptor matrix`.
The three dictionaries initialised over `out_names` and assigned once per
label (lines 204-206, 212, 218-219) are modelled as association lists
built in loop order. -/
def create_dataframes_dic (df_desc_base_train df_desc_base_test : Mat)
    (X_train_fp X_test_fp : Mat) (y_train : String → List ℚ)
    (out_names : List String) :
    Except String (Dic Mat × Dic Mat × Dic (List String)) := do
  let entries ← forLabels (fun name => do
    let sel_col ← select_best_descriptors skb df_desc_base_train (y_train name)
    pure (hcat X_train_fp (selectCols df_desc_base_train sel_col),
          hcat X_test_fp (selectCols df_desc_base_test sel_col),
          sel_col)) out_names
  pure (entries.map (fun e => (e.1, e.2.1)),
        entries.map (fun e => (e.1, e.2.2.1)),
        entries.map (fun e => (e.1, e.2.2.2)))

end Selector

section Balancer

/-- Number of features of a row-major numpy array (`X.shape[1]`); arrays in
this development are rectangular, so the first row's length is used. -/
def nFeatures (X : List (List ℚ)) : Nat := (X.headD []).length

/-- Indices of the `true` positions of a boolean mask
(`np.flatnonzero(mask)`). -/
def maskIndices (mask : List Bool) : List Nat :=
  ((mask.zip (List.range mask.length)).filter (fun p => p.1)).map Prod.snd

/-- The categorical-feature mask the source builds at every balancing site
(lines 229-230, 257-258, 346-347, 511-512, 690-691, 709-710):
`np.full((1128,), True)` with the last 3 entries set to `False`. -/
def catShape : List Bool := List.replicate 1125 true ++ List.replicate 3 false

/-- Distinct class values of a target vector, in order of first
appearance. -/
def classValues (y : List Nat) : List Nat := y.dedup

/-- Count of the most populated class (`sampling_strategy="auto"`
oversamples every other class up to this count). -/
def majorityCount (y : List Nat) : Nat :=
  ((classValues y).map (fun c => y.count c)).foldr max 0

/-- Synthetic minority rows for class `c`.  SMOTE synthesises `n` new rows
by nearest-neighbour interpolation between existing class-`c` rows; the
interpolation itself is floating-point and is abstracted to row
multiplicity (each synthetic row is modelled as a copy of the first
class-`c` row) — the verified claims concern only row counts and class
labels of the resampled data, never synthetic coordinates. -/
def synthRows (X : List (List ℚ)) (y : List Nat) (c : Nat) (n : Nat) : List (List ℚ) :=
  List.replicate n ((((X.zip y).filter (fun p => p.2 == c)).map Prod.fst).headD
    (List.replicate (nFeatures X) 0))

/-- Model of `imblearn.over_sampling.SMOTENC(categorical_features=mask,
...).fit_resample(X, y)` with the source's default `sampling_strategy=
"auto"` and `k_neighbors=5`:

* a boolean mask is converted to categorical indices by `flatnonzero`;
  `_validate_estimator` raises when every feature would be categorical;
  `X[:, categorical_indices]` raises `IndexError` when an index is out of
  bounds for the actual feature count (this is how a too-long mask fails);
* SMOTE's `NearestNeighbors(n_neighbors=6)` raises when a class that needs
  synthetic samples has fewer than 6 members;
* otherwise every non-majority class is oversampled up to the majority
  count, the synthetic rows being appended after the original data
  (`np.vstack`). -/
def smotenc_fit_resample (catMask : List Bool) (X : List (List ℚ)) (y : List Nat) :
    Except String (List (List ℚ) × List Nat) :=
  if (maskIndices catMask).length = nFeatures X then
    .error "ValueError: SMOTE-NC is not designed to work only with categorical features"
  else if (maskIndices catMask).any (fun i => nFeatures X ≤ i) then
    .error "IndexError: categorical feature index out of bounds"
  else if (classValues y).any (fun c => y.count c < majorityCount y ∧ y.count c < 6) then
    .error "ValueError: Expected n_neighbors <= n_samples"
  else
    .ok (X ++ (classValues y).flatMap (fun c => synthRows X y c (majorityCount y - y.count c)),
         y ++ (classValues y).flatMap (fun c => List.replicate (majorityCount y - y.count c) c))

/-- Embedding of `balance_dataset` (lines 225-249): for each label, read
its training matrix and target from the input dictionaries (a missing key
is Python's `KeyError`), resample with `SMOTENC` under the fixed
`catShape` mask, and collect the results into two freshly created
dictionaries; the input dictionaries are only ever read. `random_state`
seeds only the abstracted interpolation draws and `n_jobs`/`verbose` only
affect scheduling/printing, so they do not appear in the model.  The loop
body is factored out as `balance_step`. -/
def balance_step (X_train_dic : Dic (List (List ℚ))) (y_train_dic : Dic (List Nat))
    (label : String) : Except String (List (List ℚ) × List Nat) :=
  match X_train_dic.lookup label with
  | none => .error "KeyError"
  | some X =>
    match y_train_dic.lookup label with
    | none => .error "KeyError"
    | some y => smotenc_fit_resample catShape X y

def balance_dataset (X_train_dic : Dic (List (List ℚ))) (y_train_dic : Dic (List Nat))
    (out_names : List String) :
    Except String (Dic (List (List ℚ)) × Dic (List Nat)) :=
  match forLabels (balance_step X_train_dic y_train_dic) out_names with
  | .error e => .error e
  | .ok pairs => .ok (pairs.map (fun p => (p.1, p.2.1)), pairs.map (fun p => (p.1, p.2.2)))

end Balancer

section Search

/-- One hyperparameter configuration (a sklearn "candidate"). -/
abbrev Params (V : Type) := List (String × V)

/-- A grid-search space: a list of dictionaries mapping a parameter name
to the list of values to try (`GridSearchCV` accepts a dict or a list of
dicts; a single dict is the one-element list). -/
abbrev ParamGrid (V : Type) := List (List (String × List V))

/-- Model of `sklearn.model_selection.StratifiedKFold` fold construction
(`_make_test_folds`): it raises `ValueError` iff `n_splits < 2` (at
construction) or every class has fewer than `n_splits` members; when only
the least populated class is smaller than `n_splits` it merely emits a
`UserWarning` (see `stratify_warnings`) and still produces exactly
`n_splits` folds — the fold count is never reduced. -/
def stratify_check (y : List Nat) (n_splits : Nat) : Except String Unit :=
  if n_splits < 2 then
    .error "ValueError: k-fold cross-validation requires at least one train/test split"
  else if (classValues y).all (fun c => y.count c < n_splits) then
    .error "ValueError: n_splits cannot be greater than the number of members in each class"
  else .ok ()

/-- The `UserWarning` `StratifiedKFold` emits when some class has fewer
than `n_splits` members (and `stratify_check` did not raise). -/
def stratify_warnings (y : List Nat) (n_splits : Nat) : List String :=
  if (classValues y).any (fun c => y.count c < n_splits) then
    ["UserWarning: The least populated class in y has fewer members than n_splits"]
  else []

/-- Model of `sklearn.model_selection.ParameterGrid` input validation: a
parameter whose value list is empty raises `ValueError` ("... need to be a
non-empty sequence"). -/
def param_grid_validate {V : Type} (g : ParamGrid V) : Except String Unit :=
  if g.any (fun d => d.any (fun kv => kv.2.isEmpty)) then
    .error "ValueError: Parameter values need to be a non-empty sequence"
  else .ok ()

/-- Candidates of one parameter dictionary: the cartesian product of its
value lists. -/
def dict_candidates {V : Type} : List (String × List V) → List (Params V)
  | [] => [[]]
  | (k, vs) :: rest => vs.flatMap (fun v => (dict_candidates rest).map (fun p => (k, v) :: p))

/-- All candidates of a grid: concatenation over its dictionaries.  An
empty grid (`[]`) yields zero candidates, on which `GridSearchCV.fit`
raises "No fits were performed". -/
def grid_candidates {V : Type} (g : ParamGrid V) : List (Params V) :=
  g.flatMap dict_candidates

/-- First-found best candidate under a mean-test-score function, matching
`best_index_ = rank_test_score.argmin()` (ties broken by the first
occurrence). -/
def bestBy {V : Type} (score : Params V → ℚ) : List (Params V) → Option (Params V)
  | [] => none
  | c :: cs => some (cs.foldl (fun b x => if score b < score x then x else b) c)

/-- Outcome of a fitted search: the selected configuration, its mean
cross-validated test score, the number of folds actually used, and the
warnings emitted while fitting. -/
structure SearchResult (V : Type) where
  best_params : Params V
  best_score : ℚ
  n_folds : Nat
  warnings : List String
deriving Repr, DecidableEq

/-- Embedding of `grid_search` (lines 252-310).  The numeric mean
cross-validated test score of a candidate is abstracted as the oracle
`score`, a function of the effective SMOTENC seed and the candidate (it
also closes over `X_train`, `y_train`, `model`, `scoring`, which the model
therefore does not repeat).  When `balancing` is set, SMOTENC is the first
stage of the fitted pipeline (lines 260-262) seeded with `random_state`;
if `random_state` is `None`, SMOTENC draws from numpy's global RNG, whose
ambient state at call time is `np_global_rng`.  `GridSearchCV` itself
enumerates `grid_candidates` exhaustively and draws nothing.  When several
error conditions hold at once the model may surface a different one of
them than sklearn does; every claim below concerns only whether an error
is surfaced. -/
def grid_search {V : Type} (y_train : List Nat) (params_to_test : ParamGrid V)
    (balancing : Bool) (n_splits : Nat) (random_state : Option Nat) (np_global_rng : Nat)
    (score : Option Nat → Params V → ℚ) : Except String (SearchResult V) :=
  match param_grid_validate params_to_test with
  | .error e => .error e
  | .ok _ =>
    match stratify_check y_train n_splits with
    | .error e => .error e
    | .ok _ =>
      let eff_seed := if balancing then some (random_state.getD np_global_rng) else none
      match bestBy (score eff_seed) (grid_candidates params_to_test) with
      | none => .error "ValueError: No fits were performed"
      | some b => .ok ⟨b, score eff_seed b, n_splits, stratify_warnings y_train n_splits⟩

/-- Candidate draws of `ParameterSampler` when the supplied space contains
a samplable distribution: each of the `n_iter` candidates is drawn using
the sampler's RNG.  The source (lines 355-356, 360-361) does not forward
`random_state` to `RandomizedSearchCV`, so that RNG is numpy's global one;
the concrete draw `(rng + i) % n` abstracts the RNG stream — the verified
facts depend only on the draws being a function of the ambient global
state and not of the `random_state` argument. -/
def sample_candidates {V : Type} (cands : List (Params V)) (n_iter : Nat) (rng : Nat) :
    List (Params V) :=
  (List.range n_iter).map (fun i => cands.getD ((rng + i) % cands.length) [])

/-- Embedding of `random_search` (lines 341-406), under the same score
oracle and seeding model as `grid_search`.  `param_dist` is the support of
the supplied parameter distribution; sampling from an empty distribution
raises. -/
def random_search {V : Type} (y_train : List Nat) (param_dist : List (Params V))
    (n_iter : Nat) (balancing : Bool) (n_splits : Nat) (random_state : Option Nat)
    (np_global_rng : Nat) (score : Option Nat → Params V → ℚ) :
    Except String (SearchResult V) :=
  if param_dist.isEmpty then
    .error "ValueError: cannot sample from an empty parameter distribution"
  else
    match stratify_check y_train n_splits with
    | .error e => .error e
    | .ok _ =>
      let eff_seed := if balancing then some (random_state.getD np_global_rng) else none
      match bestBy (score eff_seed) (sample_candidates param_dist n_iter np_global_rng) with
      | none => .error "ValueError: No fits were performed"
      | some b => .ok ⟨b, score eff_seed b, n_splits, stratify_warnings y_train n_splits⟩

end Search

section Reporting

/-- A fitted classifier as the reporting code uses it: `predict` returns
hard 0/1 labels; `predict_proba` returns per-row class-probability pairs
`(p_class0, p_class1)` and is `none` for an estimator that does not expose
probability prediction (e.g. `SVC` without `probability=True`), in which
case calling it raises `AttributeError`. -/
structure Estimator where
  predict : List (List ℚ) → List Nat
  predict_proba : Option (List (List ℚ) → List (ℚ × ℚ))

/-- The metric record `score_report` returns (source lines 502-503), with
the source's key names. -/
structure ScoreRec where
  f1_micr_score : ℚ
  auc_score : ℚ
  rec_score : ℚ
  prec_score : ℚ
  f1_macro_score : ℚ
  f1_s_score : ℚ
  prec_rec_score : ℚ
deriving Repr, DecidableEq

/- Abstract models of the sklearn metric functions used by `score_report`
(lines 446-452, 483).  Their floating-point numerics are not modelled; the
theorems hold for arbitrary such functions, which is exactly what makes
"computed from the probability scores, not from the hard predictions" a
statement about data flow. -/
variable (f1_micro f1_macro f1_binary roc_auc recall_m precision_m :
  List Nat → List Nat → ℚ)
variable (average_precision : List Nat → List ℚ → ℚ)
variable (pr_curve : List Nat → List ℚ → List (ℚ × ℚ))

/-- Embedding of `score_report` (lines 439-503).  It unconditionally calls
`estimator.predict_proba` (line 442) and takes the positive-class column
(line 443): an estimator without probability output raises before any
metric record is produced.  Average precision (line 452) and the
precision-recall curve plotted when `plot` is set (line 483) are computed
from `y_score`, the positive-class probabilities; the other metrics from
the hard predictions.  The optional second component of the result is the
plotted curve. -/
def score_report (est : Estimator) (X_test : List (List ℚ)) (y_test : List Nat)
    (plot : Bool) : Except String (ScoreRec × Option (List (ℚ × ℚ))) :=
  match est.predict_proba with
  | none => .error "AttributeError: this estimator has no predict_proba"
  | some proba =>
    let y_true := y_test
    let y_pred := est.predict X_test
    let y_score := (proba X_test).map Prod.snd
    .ok ({ f1_micr_score := f1_micro y_true y_pred
           auc_score := roc_auc y_true y_pred
           rec_score := recall_m y_true y_pred
           prec_score := precision_m y_true y_pred
           f1_macro_score := f1_macro y_true y_pred
           f1_s_score := f1_binary y_true y_pred
           prec_rec_score := average_precision y_true y_score },
         if plot then some (pr_curve y_true y_score) else none)

/-- Minimal model of the pandas `DataFrame` used as a report table:
declared columns, a fixed row index, and the written cells as an
association list from (row, column) to the value, most recent write
first. -/
structure DF where
  columns : List String
  index : List String
  entries : List ((String × String) × ℚ)
deriving Repr, DecidableEq

/-- Model of `pd.DataFrame(columns=cols, index=idx)`: an empty table. -/
def DF.init (cols idx : List String) : DF := ⟨cols, idx, []⟩

/-- Model of `df.loc[r, c] = v`: pandas label assignment writes the cell and, when
the column label is new, enlarges the table with that column (appended
after the existing ones). -/
def DF.setCell (df : DF) (r c : String) (v : ℚ) : DF :=
  { columns := if c ∈ df.columns then df.columns else df.columns ++ [c]
    index := df.index
    entries := ((r, c), v) :: df.entries }

/-- Read a cell back (`none` models a never-written `NaN` cell). -/
def DF.getCell (df : DF) (r c : String) : Option ℚ :=
  df.entries.lookup (r, c)

/-- Write a whole row of (column, value) assignments in order. -/
def DF.setRow (df : DF) (r : String) (cells : List (String × ℚ)) : DF :=
  cells.foldl (fun d p => d.setCell r p.1 p.2) df

/-- Model of Python `round(float(q), 3)` used on every report cell.
Python rounds ties to even; the tie-breaking direction is irrelevant to
every claim below, so the Mathlib `round` is used. -/
def pyRound3 (q : ℚ) : ℚ := round (q * 1000) / 1000

/-- Means record returned by `cv_report` (lines 559-561), restricted to
the seven mean fields that `cv_multi_report` reads (the std fields are
never read by the report assembly); key names are the source's. -/
structure CvRec where
  f1_micr_score : ℚ
  auc_score : ℚ
  rec_score : ℚ
  prec_score : ℚ
  f1_macro_score : ℚ
  f1_score : ℚ
  avp_score : ℚ
deriving Repr, DecidableEq

/-- The columns `cv_multi_report` declares up front (lines 568-570). -/
def cv_report_columns : List String :=
  ["F1 Binary", "F1 Micro", "F1 Macro", "ROC_AUC", "Recall", "Precision", "Average Precision"]

/-- The per-label cell assignments of `cv_multi_report` (lines 637-643),
in source order. -/
def cv_row_assignments (s : CvRec) : List (String × ℚ) :=
  [("F1 Micro", pyRound3 s.f1_micr_score),
   ("F1 Macro", pyRound3 s.f1_macro_score),
   ("F1 Binary", pyRound3 s.f1_score),
   ("ROC_AUC", pyRound3 s.auc_score),
   ("Recall", pyRound3 s.rec_score),
   ("Precision", pyRound3 s.prec_score),
   ("Average Precision", pyRound3 s.avp_score)]

/-- Model-family tags `cv_multi_report` recognises (lines 581-629). -/
def cv_recognized (tag : String) : Bool :=
  tag == "SVC" || tag == "RF" || tag == "XGB" || tag == "VotingClassifier"

/-- Loop of `cv_multi_report`: per label, when `spec_params` is supplied
the model-family tag is dispatched on and an unrecognised tag prints the
diagnostic and returns `None` at once; otherwise the label's cv scores are
written into its row. -/
def cv_multi_loop (spec_params : Bool) (modelname : String → String)
    (scores : String → CvRec) : List String → DF → Option DF × List String
  | [], df => (some df, [])
  | name :: rest, df =>
    if spec_params ∧ ¬ cv_recognized (modelname name) then
      (none, ["Please specify used model (SVC, RF, XGB)"])
    else
      cv_multi_loop spec_params modelname scores rest
        (df.setRow name (cv_row_assignments (scores name)))

/-- Embedding of `cv_multi_report` (lines 564-645).  The per-label metric
means are abstracted as the oracle `scores` (the record `cv_report`
returns for that label's data and reconstructed model).  The final
`report.apply(pd.to_numeric)` (line 644) is the identity here because
every written cell is already the numeric `round(float(...), 3)`. -/
def cv_multi_report (out_names : List String) (spec_params : Bool)
    (modelname : String → String) (scores : String → CvRec) :
    Option DF × List String :=
  cv_multi_loop spec_params modelname scores out_names
    (DF.init cv_report_columns out_names)

/-- The columns `test_score_multi_report` declares up front (lines
652-653): only six — "Average Precision" is absent. -/
def test_report_columns : List String :=
  ["F1 Binary", "F1 Micro", "F1 Macro", "ROC_AUC", "Recall", "Precision"]

/-- The per-label cell assignments of `test_score_multi_report` (lines
726-732), in source order; the last one targets the undeclared column
"Average Prec-Rec", which pandas adds by enlargement. -/
def test_row_assignments (s : ScoreRec) : List (String × ℚ) :=
  [("F1 Micro", pyRound3 s.f1_micr_score),
   ("F1 Macro", pyRound3 s.f1_macro_score),
   ("F1 Binary", pyRound3 s.f1_s_score),
   ("ROC_AUC", pyRound3 s.auc_score),
   ("Recall", pyRound3 s.rec_score),
   ("Precision", pyRound3 s.prec_score),
   ("Average Prec-Rec", pyRound3 s.prec_rec_score)]

/-- Model-family tags `test_score_multi_report` recognises (lines
663-686): no voting ensemble here. -/
def test_recognized (tag : String) : Bool :=
  tag == "SVC" || tag == "RF" || tag == "XGB"

/-- Loop of `test_score_multi_report`, analogous to `cv_multi_loop`. -/
def test_multi_loop (spec_params : Bool) (modelname : String → String)
    (scores : String → ScoreRec) : List String → DF → Option DF × List String
  | [], df => (some df, [])
  | name :: rest, df =>
    if spec_params ∧ ¬ test_recognized (modelname name) then
      (none, ["Please specify used model (SVC, RF, XGB)"])
    else
      test_multi_loop spec_params modelname scores rest
        (df.setRow name (test_row_assignments (scores name)))

/-- Embedding of `test_score_multi_report` (lines 648-735).  Per label the
model is fitted on the (optionally balanced) training data and
`score_report` evaluates it on the held-out data; that record is the
oracle `scores`.  Like `cv_multi_report`, the trailing
`report.apply(pd.to_numeric)` is the identity on the written cells. -/
def test_score_multi_report (out_names : List String) (spec_params : Bool)
    (modelname : String → String) (scores : String → ScoreRec) :
    Option DF × List String :=
  test_multi_loop spec_params modelname scores out_names
    (DF.init test_report_columns out_names)

end Reporting

section Remote

/-- An HTTP response as `requests` presents it: a status code and a body
text. -/
structure HttpResponse where
  status : Nat
  text : String

/-- Model of `re.sub("^CID[0]*", "", cid)`: remove one leading literal
`CID` together with the zeros immediately following it; a string not
starting with `CID` is unchanged. -/
def trimCID (cid : String) : String :=
  if cid.startsWith "CID" then
    String.mk (((cid.drop 3).toList).dropWhile (fun ch => ch == '0'))
  else cid

/-- The PubChem endpoint URL built at line 743. -/
def pubchemUrl (ct : String) : String :=
  "https://pubchem.ncbi.nlm.nih.gov/rest/pug/compound/cid/" ++ ct ++
    "/property/CanonicalSMILES/txt"

/-- Model of `requests.Response.raise_for_status()`: it raises `HTTPError`
exactly for client-error (4xx) and server-error (5xx) status codes; 1xx,
2xx and 3xx codes do not raise. -/
def raise_for_status (r : HttpResponse) : Option String :=
  if 400 ≤ r.status ∧ r.status < 600 then some "HTTPError" else none

/-- Python `str.strip(c)`: remove the character from both ends only. -/
def stripChar (ch : Char) (s : String) : String :=
  String.mk ((((s.toList.dropWhile (fun c => c == ch)).reverse.dropWhile
    (fun c => c == ch)).reverse))

/-- Embedding of `get_smile_from_cid` (lines 738-755) over an abstract
network `http : url → response`.  Returns the value handed back to the
caller, the list of URLs requested, and the printed diagnostic lines.  The
`raise_for_status` call is wrapped in `try/except Exception` (lines
746-749), so the function never raises: it prints on an HTTP error and
still returns `res.text.strip("\n")`. -/
def get_smile_from_cid (http : String → HttpResponse) (cid : String) :
    String × List String × List String :=
  let ct := trimCID cid
  let res := http (pubchemUrl ct)
  let log := match raise_for_status res with
    | some e => ["Problem retrieving smile for " ++ cid ++ ": " ++ e]
    | none => []
  (stripChar '\n' res.text, [pubchemUrl ct], log)

/-- The lookup-table comprehension of `create_offside_df` (line 763):
`{stitch: get_smile_from_cid(stitch) for stitch in stitchs}` — every
identifier is mapped, whether or not its lookup failed, so the batch
continues past failed lookups. -/
def sti_to_smil (http : String → HttpResponse) (stitchs : List String) : Dic String :=
  stitchs.map (fun s => (s, (get_smile_from_cid http s).1))

end Remote

section SharedLemmas

theorem lookup_map_snd {β γ : Type} (proj : β → γ) :
    ∀ (l : List (String × β)) (a : String),
      (l.map (fun e => (e.1, proj e.2))).lookup a = (l.lookup a).map proj := by
  intro l a
  induction l with
  | nil => rfl
  | cons e t ih =>
    by_cases h : a = e.1
    · simp [List.lookup, h]
    · have hb : (a == e.1) = false := beq_eq_false_iff_ne.mpr h
      simp [List.lookup, hb, ih]

theorem lookup_map_self {γ : Type} (f : String → γ) :
    ∀ (l : List String) (a : String), a ∈ l →
      (l.map (fun s => (s, f s))).lookup a = some (f a) := by
  intro l a
  induction l with
  | nil => intro h; cases h
  | cons s t ih =>
    intro h
    by_cases hs : a = s
    · simp [List.lookup, hs]
    · rcases List.mem_cons.mp h with h1 | h2
      · exact absurd h1 hs
      · have hb : (a == s) = false := beq_eq_false_iff_ne.mpr hs
        simp [List.lookup, hb, ih h2]

theorem forLabels_lookup {β : Type} {f : String → Except String β} :
    ∀ {names : List String} {out : List (String × β)},
      forLabels f names = .ok out →
      ∀ a ∈ names, ∃ b, f a = .ok b ∧ out.lookup a = some b := by
  intro names
  induction names with
  | nil => intro out h a ha; cases ha
  | cons n rest ih =>
    intro out h a ha
    rw [forLabels] at h
    rcases hfn : f n with e | b <;> rw [hfn] at h
    · cases h
    · rcases hrest : forLabels f rest with e | tail <;> rw [hrest] at h
      · cases h
      · cases h
        by_cases hn : a = n
        · exact ⟨b, by rw [hn, hfn], by simp [List.lookup, hn]⟩
        · rcases List.mem_cons.mp ha with h1 | h2
          · exact absurd h1 hn
          · rcases ih hrest a h2 with ⟨b2, hb2, hl2⟩
            have hb : (a == n) = false := beq_eq_false_iff_ne.mpr hn
            exact ⟨b2, hb2, by simp [List.lookup, hb, hl2]⟩

theorem forLabels_congr_proj {β γ : Type} {f g : String → Except String β}
    {p q : β → γ} (h : ∀ n, (f n).map p = (g n).map q) :
    ∀ names, (forLabels f names).map (List.map (fun e => (e.1, p e.2))) =
             (forLabels g names).map (List.map (fun e => (e.1, q e.2))) := by
  intro names
  induction names with
  | nil => rfl
  | cons n rest ih =>
    have hn := h n
    rw [forLabels, forLabels]
    rcases hfn : f n with e | b <;> rw [hfn] at hn
    · rcases hgn : g n with e2 | b2 <;> rw [hgn] at hn <;> simp [Except.map] at hn
      · subst hn; simp [Except.map]
    · rcases hgn : g n with e2 | b2 <;> rw [hgn] at hn <;> simp [Except.map] at hn
      · rcases h1 : forLabels f rest with e3 | t1 <;> rw [h1] at ih <;>
          rcases h2 : forLabels g rest with e4 | t2 <;> rw [h2] at ih <;>
          simp [Except.map] at ih ⊢
        · exact ih
        · exact ⟨hn, ih⟩

end SharedLemmas

section C1Claim

/-- The per-label body of `create_dataframes_dic`, packaged: selection from
the training data, then the train/test matrices built from it. -/
def builder_step (skb : Mat → List ℚ → List Bool) (dTr dTe fpTr fpTe : Mat)
    (y : String → List ℚ) (name : String) : Except String (Mat × Mat × List String) :=
  (select_best_descriptors skb dTr (y name)).map
    (fun sel => (hcat fpTr (selectCols dTr sel), hcat fpTe (selectCols dTe sel), sel))

theorem create_dataframes_dic_eq (skb : Mat → List ℚ → List Bool)
    (dTr dTe fpTr fpTe : Mat) (y : String → List ℚ) (names : List String) :
    create_dataframes_dic skb dTr dTe fpTr fpTe y names =
      (forLabels (builder_step skb dTr dTe fpTr fpTe y) names).map
        (fun entries => (entries.map (fun e => (e.1, e.2.1)),
                         entries.map (fun e => (e.1, e.2.2.1)),
                         entries.map (fun e => (e.1, e.2.2.2)))) := by
  unfold create_dataframes_dic
  have hfg : (fun name => (select_best_descriptors skb dTr (y name)).bind
      (fun sel_col => pure (hcat fpTr (selectCols dTr sel_col),
                            hcat fpTe (selectCols dTe sel_col), sel_col))) =
      builder_step skb dTr dTe fpTr fpTe y := by
    funext name
    unfold builder_step
    rcases select_best_descriptors skb dTr (y name) with e | sel <;> rfl
  rw [show (do
        let entries ← forLabels (fun name => do
          let sel_col ← select_best_descriptors skb dTr (y name)
          pure (hcat fpTr (selectCols dTr sel_col),
                hcat fpTe (selectCols dTe sel_col), sel_col)) names
        pure (entries.map (fun e => (e.1, e.2.1)),
              entries.map (fun e => (e.1, e.2.2.1)),
              entries.map (fun e => (e.1, e.2.2.2))) :
      Except String (Dic Mat × Dic Mat × Dic (List String))) =
    (forLabels (builder_step skb dTr dTe fpTr fpTe y) names).bind
      (fun entries => pure (entries.map (fun e => (e.1, e.2.1)),
                            entries.map (fun e => (e.1, e.2.2.1)),
                            entries.map (fun e => (e.1, e.2.2.2)))) from hfg ▸ rfl]
  rcases forLabels (builder_step skb dTr dTe fpTr fpTe y) names with e | entries <;> rfl

/-- C1: for every label in `out_names`, the column list recorded in
`selected_name` is produced by `select_best_descriptors` applied only to
the training descriptor matrix and that label's training target; the test
matrix for the label is the test fingerprints concatenated with exactly
that same column list selected from the test descriptor matrix (no
recomputation from test data); and replacing the test descriptor matrix by
any other leaves every recorded selection unchanged, so the train-side and
test-side selected-column lists are identical for every label. -/
theorem C1_test_selection_equals_train_selection
    (skb : Mat → List ℚ → List Bool) (dTr dTe fpTr fpTe : Mat)
    (y_train : String → List ℚ) (out_names : List String)
    (tr te : Dic Mat) (selname : Dic (List String))
    (hok : create_dataframes_dic skb dTr dTe fpTr fpTe y_train out_names =
      .ok (tr, te, selname))
    (name : String) (hmem : name ∈ out_names) :
    ∃ sel, select_best_descriptors skb dTr (y_train name) = .ok sel ∧
      selname.lookup name = some sel ∧
      tr.lookup name = some (hcat fpTr (selectCols dTr sel)) ∧
      te.lookup name = some (hcat fpTe (selectCols dTe sel)) ∧
      ∀ dTe2, ∃ tr2 te2,
        create_dataframes_dic skb dTr dTe2 fpTr fpTe y_train out_names =
          .ok (tr2, te2, selname) := by
  rw [create_dataframes_dic_eq] at hok
  rcases h1 : forLabels (builder_step skb dTr dTe fpTr fpTe y_train) out_names
    with e | entries <;> rw [h1] at hok
  · cases hok
  · simp only [Except.map] at hok
    cases hok
    obtain ⟨b, hb, hlk⟩ := forLabels_lookup h1 name hmem
    rcases hsbd : select_best_descriptors skb dTr (y_train name) with e2 | sel <;>
      rw [builder_step, hsbd] at hb
    · cases hb
    · simp only [Except.map] at hb
      cases hb
      refine ⟨sel, rfl,
        by rw [lookup_map_snd (fun b => b.2.2) entries name, hlk]; rfl,
        by rw [lookup_map_snd (fun b => b.1) entries name, hlk]; rfl,
        by rw [lookup_map_snd (fun b => b.2.1) entries name, hlk]; rfl, ?_⟩
      intro dTe2
      have hcongr := forLabels_congr_proj
        (f := builder_step skb dTr dTe fpTr fpTe y_train)
        (g := builder_step skb dTr dTe2 fpTr fpTe y_train)
        (p := fun b => b.2.2) (q := fun b => b.2.2)
        (by
          intro n
          unfold builder_step
          rcases select_best_descriptors skb dTr (y_train n) with e3 | sel3 <;> rfl)
        out_names
      rw [h1] at hcongr
      rcases h2 : forLabels (builder_step skb dTr dTe2 fpTr fpTe y_train) out_names
        with e4 | entries2 <;> rw [h2] at hcongr <;> simp only [Except.map] at hcongr
      · cases hcongr
      · refine ⟨entries2.map (fun e => (e.1, e.2.1)),
               entries2.map (fun e => (e.1, e.2.2.1)), ?_⟩
        rw [create_dataframes_dic_eq, h2]
        simp only [Except.map]
        injection hcongr with h3
        rw [h3]

/-- Witness for C1 at a concrete instance: one label, a one-column
training descriptor matrix, support mask selecting that column. -/
theorem C1_test_selection_equals_train_selection_witness :
    ∃ sel, select_best_descriptors (fun _ _ => [true]) [("d1", [0, 1])]
        ((fun _ => [(0 : ℚ), 1]) "L") = .ok sel ∧
      List.lookup "L" [("L", ["d1"])] = some sel ∧
      List.lookup "L" [("L", hcat [("f1", [(1 : ℚ), 1])] (selectCols [("d1", [0, 1])] ["d1"]))] =
        some (hcat [("f1", [(1 : ℚ), 1])] (selectCols [("d1", [0, 1])] sel)) ∧
      List.lookup "L" [("L", hcat [("f1", [(2 : ℚ), 2])] (selectCols [("d1", [7, 7])] ["d1"]))] =
        some (hcat [("f1", [(2 : ℚ), 2])] (selectCols [("d1", [7, 7])] sel)) ∧
      ∀ dTe2, ∃ tr2 te2,
        create_dataframes_dic (fun _ _ => [true]) [("d1", [0, 1])] dTe2
            [("f1", [(1 : ℚ), 1])] [("f1", [(2 : ℚ), 2])] (fun _ => [(0 : ℚ), 1]) ["L"] =
          .ok (tr2, te2, [("L", ["d1"])]) :=
  C1_test_selection_equals_train_selection (fun _ _ => [true]) [("d1", [0, 1])]
    [("d1", [7, 7])] [("f1", [(1 : ℚ), 1])] [("f1", [(2 : ℚ), 2])] (fun _ => [(0 : ℚ), 1])
    ["L"] _ _ _ rfl "L" (by simp)

end C1Claim

section C2Claim

/-- C2 counterexample: the claim states the search fails whenever some
class of the training target has fewer members than `n_splits`.  On a
target with 10 negatives and only 2 positives and `n_splits = 5`
(positives fewer than folds), `grid_search` does not fail: it returns a
best configuration, merely emitting the `StratifiedKFold` warning, and
still uses all 5 folds. -/
theorem C2_small_class_counterexample :
    (List.replicate 10 0 ++ List.replicate 2 1).count 1 < 5 ∧
    grid_search (List.replicate 10 0 ++ List.replicate 2 1) [[("C", [1, 2])]] false 5
        (some 0) 0 (fun _ _ => (0 : ℚ)) =
      .ok ⟨[("C", 1)], 0, 5,
        ["UserWarning: The least populated class in y has fewer members than n_splits"]⟩ := by
  constructor
  · decide
  · rfl

/-- C2 (amended): the searches surface an error when the parameter grid is
invalid or yields no candidates (respectively, when the sampling
distribution is empty), and when stratification is infeasible in
scikit-learn's sense — every class having fewer members than `n_splits`;
when only some class is smaller than `n_splits` the search may succeed,
but then it never silently degrades: it uses exactly `n_splits` folds and
the stratification warning is emitted. -/
theorem C2_error_surfacing {V : Type} (y : List Nat) (g : ParamGrid V)
    (dist : List (Params V)) (n_iter : Nat) (bal : Bool) (ns : Nat)
    (rs : Option Nat) (rng : Nat) (score : Option Nat → Params V → ℚ) :
    ((g.any (fun d => d.any (fun kv => kv.2.isEmpty)) = true ∨ grid_candidates g = []) →
      ∃ e, grid_search y g bal ns rs rng score = .error e) ∧
    ((classValues y).all (fun c => y.count c < ns) = true →
      (∃ e, grid_search y g bal ns rs rng score = .error e) ∧
      (∃ e, random_search y dist n_iter bal ns rs rng score = .error e)) ∧
    (dist = [] → ∃ e, random_search y dist n_iter bal ns rs rng score = .error e) ∧
    (∀ r, grid_search y g bal ns rs rng score = .ok r →
      r.n_folds = ns ∧ ((∃ c ∈ classValues y, y.count c < ns) → r.warnings ≠ [])) ∧
    (∀ r, random_search y dist n_iter bal ns rs rng score = .ok r →
      r.n_folds = ns ∧ ((∃ c ∈ classValues y, y.count c < ns) → r.warnings ≠ [])) := by
  have hwarn : (∃ c ∈ classValues y, y.count c < ns) → stratify_warnings y ns ≠ [] := by
    intro hex
    unfold stratify_warnings
    have : (classValues y).any (fun c => decide (y.count c < ns)) = true := by
      rcases hex with ⟨c, hc, hlt⟩
      exact List.any_eq_true.mpr ⟨c, hc, by simpa using hlt⟩
    simp [this]
  refine ⟨?_, ?_, ?_, ?_, ?_⟩
  · intro h
    unfold grid_search
    rcases hv : param_grid_validate g with e | u
    · exact ⟨e, rfl⟩
    · rcases h with h1 | h2
      · exact absurd hv (by unfold param_grid_validate; simp [h1])
      · rcases hs : stratify_check y ns with e | u2
        · exact ⟨e, rfl⟩
        · exact ⟨_, by rw [h2]; rfl⟩
  · intro h
    constructor
    · unfold grid_search
      rcases hv : param_grid_validate g with e | u
      · exact ⟨e, rfl⟩
      · rcases hs : stratify_check y ns with e | u2
        · exact ⟨e, rfl⟩
        · exact absurd hs (by unfold stratify_check; by_cases h2 : ns < 2 <;> simp [h2, h])
    · by_cases hd : dist.isEmpty
      · exact ⟨"ValueError: cannot sample from an empty parameter distribution",
          by unfold random_search; simp [hd]⟩
      · rcases hs : stratify_check y ns with e | u2
        · exact ⟨e, by unfold random_search; simp [hd, hs]⟩
        · exact absurd hs (by unfold stratify_check; by_cases h2 : ns < 2 <;> simp [h2, h])
  · intro h
    subst h
    exact ⟨"ValueError: cannot sample from an empty parameter distribution",
      by unfold random_search; simp⟩
  · intro r hr
    unfold grid_search at hr
    rcases hv : param_grid_validate g with e | u <;> simp only [hv] at hr
    · cases hr
    · rcases hs : stratify_check y ns with e | u2 <;> simp only [hs] at hr
      · cases hr
      · rcases hb : bestBy (score (if bal then some (rs.getD rng) else none))
          (grid_candidates g) with _ | b <;> simp only [hb] at hr
        · cases hr
        · cases hr
          exact ⟨rfl, hwarn⟩
  · intro r hr
    unfold random_search at hr
    by_cases hd : dist.isEmpty <;> simp only [hd, if_true, if_false, Bool.false_eq_true,
      reduceIte] at hr
    · cases hr
    · rcases hs : stratify_check y ns with e | u2 <;> simp only [hs] at hr
      · cases hr
      · rcases hb : bestBy (score (if bal then some (rs.getD rng) else none))
          (sample_candidates dist n_iter rng) with _ | b <;> simp only [hb] at hr
        · cases hr
        · cases hr
          exact ⟨rfl, hwarn⟩

/-- Witness for C2 (amended): a parameter dictionary with an empty value
list makes `grid_search` surface an error. -/
theorem C2_error_surfacing_witness :
    ∃ e, grid_search [0, 0, 1] [[("C", ([] : List Nat))]] false 2 none 0
      (fun _ _ => (0 : ℚ)) = .error e :=
  (C2_error_surfacing [0, 0, 1] [[("C", ([] : List Nat))]] [] 0 false 2 none 0
    (fun _ _ => (0 : ℚ))).1 (Or.inl (by decide))

end C2Claim

section C4Claim

/-- C4 counterexample: with the seed argument fixed (`random_state = some
42`) and identical data, distribution and `n_iter`, two runs of
`random_search` under different ambient global-RNG states return different
best configurations — the source never forwards `random_state` to
`RandomizedSearchCV`, so the candidate sampler draws from numpy's global
RNG and the search is not a deterministic function of its inputs once the
seed argument is fixed. -/
theorem C4_random_search_nondeterminism_counterexample :
    (random_search (List.replicate 5 0 ++ List.replicate 5 1) [[("C", 1)], [("C", 2)]] 1
        false 2 (some 42) 0 (fun _ _ => (0 : ℚ))).toOption.map SearchResult.best_params ≠
      (random_search (List.replicate 5 0 ++ List.replicate 5 1) [[("C", 1)], [("C", 2)]] 1
        false 2 (some 42) 1 (fun _ _ => (0 : ℚ))).toOption.map SearchResult.best_params := by
  decide

/-- C4 (amended): `grid_search` is deterministic once the seed argument is
an integer (or balancing is off) — reruns under different ambient global
RNG states coincide; `random_search` is not: its `random_state` argument
is never forwarded to the candidate sampler, so without balancing the
result does not depend on `random_state` at all, and reruns coincide only
when the ambient global RNG state coincides. -/
theorem C4_grid_search_determinism {V : Type} (y : List Nat) (g : ParamGrid V)
    (dist : List (Params V)) (n_iter : Nat) (bal : Bool) (ns : Nat)
    (rs : Option Nat) (rng1 rng2 : Nat) (score : Option Nat → Params V → ℚ) :
    ((bal = false ∨ ∃ s, rs = some s) →
      grid_search y g bal ns rs rng1 score = grid_search y g bal ns rs rng2 score) ∧
    (∀ rsA rsB : Option Nat, random_search y dist n_iter false ns rsA rng1 score =
      random_search y dist n_iter false ns rsB rng1 score) := by
  constructor
  · intro h
    unfold grid_search
    have hseed : (if bal then some (rs.getD rng1) else none) =
        (if bal then some (rs.getD rng2) else none) := by
      rcases h with hb | ⟨s, hs⟩
      · simp [hb]
      · simp [hs]
    rw [hseed]
  · intro rsA rsB
    unfold random_search
    simp

/-- Witness for C4 (amended): a concrete grid search with an integer seed
evaluated under two different ambient global RNG states. -/
theorem C4_grid_search_determinism_witness :
    grid_search [0, 0, 1, 1] [[("C", [1, 2])]] false 2 (some 7) 0 (fun _ _ => (0 : ℚ)) =
      grid_search [0, 0, 1, 1] [[("C", [1, 2])]] false 2 (some 7) 99 (fun _ _ => (0 : ℚ)) :=
  (C4_grid_search_determinism [0, 0, 1, 1] [[("C", [1, 2])]] [] 0 false 2 (some 7) 0 99
    (fun _ _ => (0 : ℚ))).1 (Or.inl rfl)

end C4Claim

section C3Claim

set_option maxRecDepth 100000 in
theorem catShape_indices : maskIndices catShape = List.range 1125 := by decide

set_option maxRecDepth 100000 in
theorem catShape_no_oob : ((List.range 1125).any (fun i => 1128 ≤ i)) = false := by decide

theorem binary_two_elem (l : List Nat) (hnd : l.Nodup) (h0 : 0 ∈ l) (h1 : 1 ∈ l)
    (h01 : ∀ v ∈ l, v = 0 ∨ v = 1) : l = [0, 1] ∨ l = [1, 0] := by
  rcases l with _ | ⟨a, l2⟩
  · cases h0
  rcases l2 with _ | ⟨b, t⟩
  · simp only [List.mem_singleton] at h0 h1
    omega
  have hab : a ≠ b := by
    intro h
    exact (List.nodup_cons.mp hnd).1 (h ▸ List.mem_cons_self b t)
  have ha := h01 a (by simp)
  have hb := h01 b (by simp)
  have ht : t = [] := by
    rcases t with _ | ⟨c, t2⟩
    · rfl
    · exfalso
      have hc := h01 c (by simp)
      have hca : c ≠ a := by
        intro h
        subst h
        exact (List.nodup_cons.mp hnd).1 (by simp)
      have hcb : c ≠ b := by
        intro h
        subst h
        exact (List.nodup_cons.mp (List.nodup_cons.mp hnd).2).1 (by simp)
      omega
  subst ht
  rcases ha with ha | ha <;> rcases hb with hb | hb
  · exact absurd (ha.trans hb.symm) hab
  · left; rw [ha, hb]
  · right; rw [ha, hb]
  · exact absurd (ha.trans hb.symm) hab

theorem count01_length (y : List Nat) (h01 : ∀ v ∈ y, v = 0 ∨ v = 1) :
    y.count 0 + y.count 1 = y.length := by
  induction y with
  | nil => rfl
  | cons v t ih =>
    have hv := h01 v (by simp)
    have ih2 := ih (fun w hw => h01 w (by simp [hw]))
    rcases hv with h | h <;> subst h <;> simp [List.count_cons] <;> omega

/-- On a binary target with majority count `M` (class 0) and minority
count `m` (class 1), `m < M`, at least 6 minority members
(`k_neighbors = 5` requires 6), and a 1128-feature matrix matching the
fixed mask, SMOTENC succeeds and equalises both class counts at `M`,
giving `2 * M` rows in total. -/
theorem smotenc_ok_binary (X : List (List ℚ)) (y : List Nat)
    (hw : nFeatures X = 1128) (h01 : ∀ v ∈ y, v = 0 ∨ v = 1)
    (M m : Nat) (hM : y.count 0 = M) (hm : y.count 1 = m)
    (hlt : m < M) (h6 : 6 ≤ m) (hlen : X.length = y.length) :
    ∃ Xb yb, smotenc_fit_resample catShape X y = .ok (Xb, yb) ∧
      yb.count 0 = M ∧ yb.count 1 = M ∧ yb.length = 2 * M ∧ Xb.length = 2 * M := by
  have h0y : 0 ∈ y := by
    by_contra h
    have := List.count_eq_zero.mpr h
    omega
  have h1y : 1 ∈ y := by
    by_contra h
    have := List.count_eq_zero.mpr h
    omega
  have hded := binary_two_elem y.dedup (List.nodup_dedup y)
    (List.mem_dedup.mpr h0y) (List.mem_dedup.mpr h1y)
    (fun v hv => h01 v (List.mem_dedup.mp hv))
  have hmaj : majorityCount y = M := by
    unfold majorityCount classValues
    rcases hded with hd | hd <;> rw [hd] <;>
      simp only [List.map_cons, List.map_nil, List.foldr_cons, List.foldr_nil, hM, hm] <;>
      omega
  have hg1 : ¬ ((maskIndices catShape).length = nFeatures X) := by
    rw [catShape_indices, hw]
    simp
  have hg2 : ¬ ((maskIndices catShape).any (fun i => nFeatures X ≤ i) = true) := by
    rw [catShape_indices, hw]
    simp only [catShape_no_oob]
    simp
  have hg3 : ¬ (((classValues y).any
      (fun c => y.count c < majorityCount y ∧ y.count c < 6)) = true) := by
    intro h
    rcases List.any_eq_true.mp h with ⟨c, hc, hcond⟩
    have hcond2 := of_decide_eq_true hcond
    have hcy : c ∈ y := List.mem_dedup.mp hc
    rcases h01 c hcy with h | h <;> subst h <;> rw [hmaj] at hcond2 <;> omega
  have hMm : M + m = y.length := by
    rw [← hM, ← hm]
    exact count01_length y h01
  unfold smotenc_fit_resample
  rw [if_neg hg1, if_neg hg2, if_neg hg3]
  refine ⟨_, _, rfl, ?_, ?_, ?_, ?_⟩
  · unfold classValues
    rcases hded with hd | hd <;> rw [hd] <;>
      simp [List.count_append, List.count_replicate, hmaj, hM, hm]
  · unfold classValues
    rcases hded with hd | hd <;> rw [hd] <;>
      simp [List.count_append, List.count_replicate, hmaj, hM, hm] <;> omega
  · unfold classValues
    rcases hded with hd | hd <;> rw [hd] <;>
      simp [hmaj, hM, hm] <;> omega
  · unfold classValues
    rcases hded with hd | hd <;> rw [hd] <;>
      simp [synthRows, hmaj, hM, hm, hlen] <;> omega

theorem balance_dataset_eq (Xd : Dic (List (List ℚ))) (yd : Dic (List Nat))
    (names : List String) :
    balance_dataset Xd yd names =
      (forLabels (balance_step Xd yd) names).map
        (fun pairs => (pairs.map (fun p => (p.1, p.2.1)),
                       pairs.map (fun p => (p.1, p.2.2)))) := by
  unfold balance_dataset
  rcases forLabels (balance_step Xd yd) names with e | pairs <;> rfl

/-- C3: for every label of `out_names`, `balance_dataset` applied to that
label's training pair — binary target with majority class 0 of size `M`,
minority class 1 of size `m < M` (with SMOTE's `k_neighbors = 5`
precondition `6 ≤ m` and the 1128-column layout the fixed mask demands) —
records in the freshly built result dictionaries a resampled pair whose
two class counts are both `M` and whose row count is `2 * M`.  The input
dictionaries are only read (source lines 234-235); the embedding, being
pure, leaves them untouched by construction. -/
theorem C3_balance_dataset_equalizes (Xd : Dic (List (List ℚ))) (yd : Dic (List Nat))
    (names : List String) (balX : Dic (List (List ℚ))) (balY : Dic (List Nat))
    (hok : balance_dataset Xd yd names = .ok (balX, balY))
    (label : String) (hmem : label ∈ names)
    (X : List (List ℚ)) (y : List Nat)
    (hX : Xd.lookup label = some X) (hy : yd.lookup label = some y)
    (M m : Nat) (hM : y.count 0 = M) (hm : y.count 1 = m)
    (h01 : ∀ v ∈ y, v = 0 ∨ v = 1) (hlt : m < M) (h6 : 6 ≤ m)
    (hw : nFeatures X = 1128) (hlen : X.length = y.length) :
    ∃ Xb yb, balX.lookup label = some Xb ∧ balY.lookup label = some yb ∧
      yb.count 0 = M ∧ yb.count 1 = M ∧ yb.length = 2 * M ∧ Xb.length = 2 * M := by
  rw [balance_dataset_eq] at hok
  rcases h1 : forLabels (balance_step Xd yd) names with e | pairs <;> rw [h1] at hok
  · cases hok
  · simp only [Except.map] at hok
    cases hok
    obtain ⟨b, hb, hlk⟩ := forLabels_lookup h1 label hmem
    obtain ⟨Xb, yb, hsm, hc0, hc1, hylen, hXlen⟩ :=
      smotenc_ok_binary X y hw h01 M m hM hm hlt h6 hlen
    have hb2 : b = (Xb, yb) := by
      simp only [balance_step, hX, hy, hsm, Except.ok.injEq] at hb
      exact hb.symm
    subst hb2
    refine ⟨Xb, yb, ?_, ?_, hc0, hc1, hylen, hXlen⟩
    · rw [lookup_map_snd (fun p => p.1) pairs label, hlk]; rfl
    · rw [lookup_map_snd (fun p => p.2) pairs label, hlk]; rfl

set_option maxRecDepth 1000000 in
/-- Witness for C3: one label with a 14-row, 1128-column training matrix,
8 negatives and 6 positives; balancing yields 8/8 and 16 rows. -/
theorem C3_balance_dataset_equalizes_witness :
    ∃ balX balY,
      balance_dataset [("L", List.replicate 14 (List.replicate 1128 (0 : ℚ)))]
          [("L", List.replicate 8 0 ++ List.replicate 6 1)] ["L"] = .ok (balX, balY) ∧
      ∃ Xb yb, balX.lookup "L" = some Xb ∧ balY.lookup "L" = some yb ∧
        yb.count 0 = 8 ∧ yb.count 1 = 8 ∧ yb.length = 16 ∧ Xb.length = 16 := by
  have hsome : (balance_dataset [("L", List.replicate 14 (List.replicate 1128 (0 : ℚ)))]
      [("L", List.replicate 8 0 ++ List.replicate 6 1)] ["L"]).toOption.isSome = true := by
    decide
  rcases h : balance_dataset [("L", List.replicate 14 (List.replicate 1128 (0 : ℚ)))]
      [("L", List.replicate 8 0 ++ List.replicate 6 1)] ["L"] with e | p
  · rw [h] at hsome
    simp [Except.toOption] at hsome
  · obtain ⟨balX, balY⟩ := p
    exact ⟨balX, balY, rfl,
      C3_balance_dataset_equalizes
        [("L", List.replicate 14 (List.replicate 1128 (0 : ℚ)))]
        [("L", List.replicate 8 0 ++ List.replicate 6 1)] ["L"] balX balY h "L" (by simp)
        (List.replicate 14 (List.replicate 1128 (0 : ℚ)))
        (List.replicate 8 0 ++ List.replicate 6 1) rfl rfl 8 6 (by decide) (by decide)
        (by decide) (by decide) (by decide) (by decide) (by decide)⟩

end C3Claim

section C7Claim

/-- SMOTENC under the fixed 1128-entry mask fails outright on any matrix
with at most 1125 columns: either every feature counts as categorical, or
a categorical index is out of bounds. -/
theorem smotenc_narrow_error (X : List (List ℚ)) (y : List Nat)
    (h : nFeatures X ≤ 1125) :
    ∃ e, smotenc_fit_resample catShape X y = .error e := by
  unfold smotenc_fit_resample
  by_cases h1 : (maskIndices catShape).length = nFeatures X
  · rw [if_pos h1]
    exact ⟨_, rfl⟩
  · rw [if_neg h1]
    have hlt : nFeatures X < 1125 := by
      rw [catShape_indices] at h1
      simp only [List.length_range] at h1
      omega
    have h2 : ((maskIndices catShape).any (fun i => nFeatures X ≤ i)) = true := by
      rw [catShape_indices]
      exact List.any_eq_true.mpr ⟨nFeatures X, List.mem_range.mpr hlt, by simp⟩
    rw [if_pos h2]
    exact ⟨_, rfl⟩

/-- C7 counterexample: the claimed invariant — the categorical mask's
length always equals the column count of the matrix it is applied to —
fails: the mask is the fixed 1128-entry `catShape` regardless of the
matrix, so a 10-column matrix reaching the balancer meets a mask of the
wrong length and the balancing call fails instead of satisfying the
invariant. -/
theorem C7_mask_mismatch_counterexample :
    catShape.length = 1128 ∧
    nFeatures (List.replicate 12 (List.replicate 10 (0 : ℚ))) = 10 ∧
    catShape.length ≠ nFeatures (List.replicate 12 (List.replicate 10 (0 : ℚ))) ∧
    (balance_dataset [("L", List.replicate 12 (List.replicate 10 (0 : ℚ)))]
        [("L", List.replicate 6 0 ++ List.replicate 6 1)] ["L"]).toOption.isSome = false := by
  have hlen : catShape.length = 1128 := by
    rw [catShape, List.length_append, List.length_replicate, List.length_replicate]
  have hnf : nFeatures (List.replicate 12 (List.replicate 10 (0 : ℚ))) = 10 := rfl
  refine ⟨hlen, hnf, by rw [hlen, hnf]; omega, ?_⟩
  obtain ⟨e, he⟩ := smotenc_narrow_error (List.replicate 12 (List.replicate 10 (0 : ℚ)))
    (List.replicate 6 0 ++ List.replicate 6 1) (by rw [hnf]; omega)
  have hstep : balance_step [("L", List.replicate 12 (List.replicate 10 (0 : ℚ)))]
      [("L", List.replicate 6 0 ++ List.replicate 6 1)] "L" = .error e := he
  rw [balance_dataset_eq, forLabels, hstep]
  rfl

/-- C7 (amended): the categorical mask is the fixed 1128-entry vector with
exactly the last 3 entries continuous, independent of the matrix it is
applied to; it matches a matrix's column layout iff the matrix has exactly
1128 columns with its 3 descriptor columns appended last (the default
pipeline's 1125 fingerprint bits + k = 3 descriptors); and for matrices
with at most 1125 columns SMOTENC fails outright rather than running with
the mismatched mask. -/
theorem C7_fixed_mask_properties :
    catShape.length = 1128 ∧
    catShape.take 1125 = List.replicate 1125 true ∧
    catShape.drop 1125 = [false, false, false] ∧
    (∀ X : List (List ℚ), catShape.length = nFeatures X ↔ nFeatures X = 1128) ∧
    (∀ (X : List (List ℚ)) (y : List Nat), nFeatures X ≤ 1125 →
      ∃ e, smotenc_fit_resample catShape X y = .error e) := by
  have hlen : catShape.length = 1128 := by
    rw [catShape, List.length_append, List.length_replicate, List.length_replicate]
  refine ⟨hlen, ?_, ?_, ?_, fun X y h => smotenc_narrow_error X y h⟩
  · have h := List.take_left (List.replicate 1125 true) (List.replicate 3 false)
    rw [List.length_replicate] at h
    rw [catShape]
    exact h
  · have h := List.drop_left (List.replicate 1125 true) (List.replicate 3 false)
    rw [List.length_replicate] at h
    rw [catShape]
    exact h.trans rfl
  · intro X
    rw [hlen]
    exact ⟨fun h => h.symm, fun h => h.symm⟩

/-- Witness for C7 (amended): a 3-column matrix makes SMOTENC under the
fixed mask fail. -/
theorem C7_fixed_mask_properties_witness :
    ∃ e, smotenc_fit_resample catShape [[(0 : ℚ), 0, 0]] [0] = .error e :=
  C7_fixed_mask_properties.2.2.2.2 [[(0 : ℚ), 0, 0]] [0] (by decide)

end C7Claim

section C6Claim

/-- Specification-level first-appearance deduplication: keep each name's
first occurrence, delete all later ones. -/
def dedupKeepFirst : List String → List String
  | [] => []
  | x :: xs => x :: dedupKeepFirst (xs.filter (fun s => s ≠ x))
termination_by l => l.length
decreasing_by
  simp only [List.length_cons]
  exact Nat.lt_succ_of_le (List.length_filter_le _ _)

theorem mem_dedupKeepFirst : ∀ (l : List String) (a : String),
    a ∈ dedupKeepFirst l ↔ a ∈ l := by
  intro l
  induction l using dedupKeepFirst.induct with
  | case1 =>
    intro a
    rw [dedupKeepFirst]
  | case2 x xs ih =>
    intro a
    rw [dedupKeepFirst]
    simp only [List.mem_cons, ih]
    constructor
    · rintro (h | h)
      · left; exact h
      · right; exact (List.mem_filter.mp h).1
    · rintro (h | h)
      · left; exact h
      · by_cases hx : a = x
        · left; exact hx
        · right
          exact List.mem_filter.mpr ⟨h, by simp [hx]⟩

theorem nodup_dedupKeepFirst : ∀ l : List String, (dedupKeepFirst l).Nodup := by
  intro l
  induction l using dedupKeepFirst.induct with
  | case1 => rw [dedupKeepFirst]; exact List.nodup_nil
  | case2 x xs ih =>
    rw [dedupKeepFirst]
    refine List.nodup_cons.mpr ⟨?_, ih⟩
    intro hmem
    have hx := (mem_dedupKeepFirst _ x).mp hmem
    have := (List.mem_filter.mp hx).2
    simp at this

theorem filter_filter_decide {l : List String} {p q r : String → Prop}
    [DecidablePred p] [DecidablePred q] [DecidablePred r]
    (h : ∀ s, (p s ∧ q s) ↔ r s) :
    List.filter (fun s => decide (p s)) (List.filter (fun s => decide (q s)) l) =
      List.filter (fun s => decide (r s)) l := by
  rw [List.filter_filter]
  apply List.filter_congr
  intro s _
  calc (decide (p s) && decide (q s)) = decide (p s ∧ q s) := (Bool.decide_and _ _).symm
    _ = decide (r s) := decide_eq_decide.mpr (h s)

theorem dedupKeepFirst_append : ∀ u v : List String,
    dedupKeepFirst (u ++ v) =
      dedupKeepFirst u ++ dedupKeepFirst (v.filter (fun s => s ∉ u)) := by
  intro u
  induction u using dedupKeepFirst.induct with
  | case1 =>
    intro v
    rw [dedupKeepFirst]
    simp
  | case2 x xs ih =>
    intro v
    rw [List.cons_append, dedupKeepFirst, dedupKeepFirst, List.filter_append,
      ih (v.filter (fun s => s ≠ x)), List.cons_append]
    congr 2
    refine congrArg dedupKeepFirst
      (@filter_filter_decide v (fun t2 => t2 ∉ xs.filter (fun s2 => s2 ≠ x))
        (fun t2 => t2 ≠ x) (fun t2 => t2 ∉ x :: xs) _ _ _ ?_)
    intro s
    simp only [List.mem_filter, List.mem_cons]
    constructor
    · rintro ⟨h1, h2⟩ (h | h)
      · exact h2 h
      · exact h1 ⟨h, by simp [h2]⟩
    · intro h
      constructor
      · intro hm
        exact h (Or.inr hm.1)
      · intro hx
        exact h (Or.inl hx)

theorem appendNew_eq : ∀ (l acc : List String),
    appendNew acc l = acc ++ dedupKeepFirst (l.filter (fun s => s ∉ acc)) := by
  intro l
  induction l with
  | nil =>
    intro acc
    rw [appendNew]
    simp [dedupKeepFirst]
  | cons s t ih =>
    intro acc
    rw [appendNew, List.foldl_cons, List.filter_cons]
    by_cases hs : s ∈ acc
    · rw [if_pos hs]
      have hd : (decide (s ∉ acc)) = false := by simp [hs]
      rw [hd]
      exact ih acc
    · rw [if_neg hs]
      have hd : (decide (s ∉ acc)) = true := by simp [hs]
      rw [hd]
      show appendNew (acc ++ [s]) t = acc ++ dedupKeepFirst (s :: t.filter (fun a => a ∉ acc))
      rw [ih (acc ++ [s]), dedupKeepFirst, List.append_assoc, List.singleton_append]
      congr 2
      refine (congrArg dedupKeepFirst
        (@filter_filter_decide t (fun a => a ≠ s) (fun a => a ∉ acc)
          (fun a => a ∉ acc ++ [s]) _ _ _ ?_)).symm
      intro a
      simp only [List.mem_append, List.mem_singleton]
      tauto

theorem foldl_appendNew_eq (sel : String → List String) :
    ∀ (names : List String) (acc : List String),
      names.foldl (fun a n => appendNew a (sel n)) acc =
        acc ++ dedupKeepFirst ((names.flatMap sel).filter (fun s => s ∉ acc)) := by
  intro names
  induction names with
  | nil =>
    intro acc
    simp [dedupKeepFirst]
  | cons n rest ih =>
    intro acc
    rw [List.foldl_cons, ih, appendNew_eq, List.flatMap_cons, List.filter_append,
      dedupKeepFirst_append, List.append_assoc]
    congr 2
    refine (congrArg dedupKeepFirst
      (@filter_filter_decide (rest.flatMap sel)
        (fun a => a ∉ (sel n).filter (fun t2 => t2 ∉ acc)) (fun a => a ∉ acc)
        (fun a => a ∉ acc ++ dedupKeepFirst ((sel n).filter (fun t2 => t2 ∉ acc)))
        _ _ _ ?_)).symm
    intro s
    simp only [List.mem_append, mem_dedupKeepFirst]
    tauto

/-- C6: on a non-empty `out_names`, `select_best_descriptors_multi`
returns the union of the per-label k-best column selections, deduplicated
keeping first occurrences in the order the label iteration encounters
them: the result equals `dedupKeepFirst` of the concatenated per-label
selections, has no duplicate, and contains a name iff some label's
selection contains it. -/
theorem C6_multi_union_dedup (skb : Mat → List ℚ → List Bool) (df_desc : Mat)
    (y_all : String → List ℚ) (out_names : List String) (hne : out_names ≠ []) :
    ∃ r, (select_best_descriptors_multi skb df_desc y_all out_names).1 = some r ∧
      r = dedupKeepFirst
        (out_names.flatMap (fun n => maskCols df_desc (skb df_desc (y_all n)))) ∧
      r.Nodup ∧
      (∀ s, s ∈ r ↔ ∃ n ∈ out_names, s ∈ maskCols df_desc (skb df_desc (y_all n))) := by
  have hemp : out_names.isEmpty = false := by
    rcases out_names with _ | _
    · exact absurd rfl hne
    · rfl
  have hfold := foldl_appendNew_eq (fun n => maskCols df_desc (skb df_desc (y_all n)))
    out_names []
  have hfilter : ((out_names.flatMap (fun n => maskCols df_desc (skb df_desc (y_all n)))).filter
      (fun s => s ∉ ([] : List String))) =
      out_names.flatMap (fun n => maskCols df_desc (skb df_desc (y_all n))) := by
    apply List.filter_eq_self.mpr
    intro a _
    simp
  rw [hfilter, List.nil_append] at hfold
  refine ⟨_, ?_, hfold, hfold ▸ nodup_dedupKeepFirst _, ?_⟩
  · rw [select_best_descriptors_multi, hemp]
    rfl
  · intro s
    rw [hfold, mem_dedupKeepFirst, List.mem_flatMap]

/-- Witness for C6 at two labels over a two-column descriptor frame whose
support mask selects both columns for each label. -/
theorem C6_multi_union_dedup_witness :
    ∃ r, (select_best_descriptors_multi (fun _ _ => [true, true])
        [("d1", [(0 : ℚ)]), ("d2", [(0 : ℚ)])] (fun _ => [(0 : ℚ)]) ["A", "B"]).1 = some r ∧
      r = dedupKeepFirst
        (["A", "B"].flatMap (fun n => maskCols [("d1", [(0 : ℚ)]), ("d2", [(0 : ℚ)])]
          ((fun _ _ => [true, true]) [("d1", [(0 : ℚ)]), ("d2", [(0 : ℚ)])]
            ((fun _ => [(0 : ℚ)]) n)))) ∧
      r.Nodup ∧
      (∀ s, s ∈ r ↔ ∃ n ∈ ["A", "B"],
        s ∈ maskCols [("d1", [(0 : ℚ)]), ("d2", [(0 : ℚ)])]
          ((fun _ _ => [true, true]) [("d1", [(0 : ℚ)]), ("d2", [(0 : ℚ)])]
            ((fun _ => [(0 : ℚ)]) n))) :=
  C6_multi_union_dedup (fun _ _ => [true, true]) [("d1", [(0 : ℚ)]), ("d2", [(0 : ℚ)])]
    (fun _ => [(0 : ℚ)]) ["A", "B"] (by simp)

end C6Claim

section C8Claim

/-- C8: `score_report` demands class-probability output: it fails on every
estimator without `predict_proba`, and on every estimator with it the
returned record's average precision — and the plotted precision-recall
curve — are computed from the positive-class probability column, not from
the hard label predictions.  The statement is universally quantified over
the abstract metric functions, so the equalities pin down which inputs
each metric receives. -/
theorem C8_score_report_requires_probability
    (f1_micro f1_macro f1_binary roc_auc recall_m precision_m : List Nat → List Nat → ℚ)
    (average_precision : List Nat → List ℚ → ℚ)
    (pr_curve : List Nat → List ℚ → List (ℚ × ℚ))
    (est : Estimator) (X_test : List (List ℚ)) (y_test : List Nat) (plot : Bool) :
    (est.predict_proba = none →
      ∃ e, score_report f1_micro f1_macro f1_binary roc_auc recall_m precision_m
        average_precision pr_curve est X_test y_test plot = .error e) ∧
    (∀ proba, est.predict_proba = some proba →
      score_report f1_micro f1_macro f1_binary roc_auc recall_m precision_m
        average_precision pr_curve est X_test y_test plot =
      .ok ({ f1_micr_score := f1_micro y_test (est.predict X_test)
             auc_score := roc_auc y_test (est.predict X_test)
             rec_score := recall_m y_test (est.predict X_test)
             prec_score := precision_m y_test (est.predict X_test)
             f1_macro_score := f1_macro y_test (est.predict X_test)
             f1_s_score := f1_binary y_test (est.predict X_test)
             prec_rec_score := average_precision y_test ((proba X_test).map Prod.snd) },
           if plot then some (pr_curve y_test ((proba X_test).map Prod.snd)) else none)) := by
  constructor
  · intro h
    unfold score_report
    rw [h]
    exact ⟨_, rfl⟩
  · intro proba h
    unfold score_report
    rw [h]

/-- Witness for C8: a concrete probability-capable estimator on an empty
test set, with concrete metric functions. -/
theorem C8_score_report_requires_probability_witness :
    score_report (fun _ _ => (0 : ℚ)) (fun _ _ => (0 : ℚ)) (fun _ _ => (0 : ℚ))
      (fun _ _ => (0 : ℚ)) (fun _ _ => (0 : ℚ)) (fun _ _ => (0 : ℚ))
      (fun _ _ => (1 / 2 : ℚ)) (fun _ _ => ([] : List (ℚ × ℚ)))
      ⟨fun _ => [], some (fun _ => [])⟩ [] [] false =
    .ok ({ f1_micr_score := 0, auc_score := 0, rec_score := 0, prec_score := 0,
           f1_macro_score := 0, f1_s_score := 0, prec_rec_score := 1 / 2 }, none) :=
  (C8_score_report_requires_probability (fun _ _ => (0 : ℚ)) (fun _ _ => (0 : ℚ))
    (fun _ _ => (0 : ℚ)) (fun _ _ => (0 : ℚ)) (fun _ _ => (0 : ℚ)) (fun _ _ => (0 : ℚ))
    (fun _ _ => (1 / 2 : ℚ)) (fun _ _ => ([] : List (ℚ × ℚ)))
    ⟨fun _ => [], some (fun _ => [])⟩ [] [] false).2 (fun _ => []) rfl

end C8Claim

section C9Claim

theorem cv_multi_loop_abort (mn : String → String) (scv : String → CvRec) :
    ∀ (names : List String) (df : DF), (∃ n ∈ names, ¬ cv_recognized (mn n)) →
      cv_multi_loop true mn scv names df =
        (none, ["Please specify used model (SVC, RF, XGB)"]) := by
  intro names
  induction names with
  | nil =>
    intro df h
    rcases h with ⟨n, hn, _⟩
    cases hn
  | cons n0 rest ih =>
    intro df h
    rw [cv_multi_loop]
    by_cases hr : cv_recognized (mn n0)
    · rw [if_neg (by simp [hr])]
      apply ih
      rcases h with ⟨n, hn, hnr⟩
      rcases List.mem_cons.mp hn with h1 | h2
      · exact absurd (h1 ▸ hr) hnr
      · exact ⟨n, h2, hnr⟩
    · rw [if_pos ⟨rfl, hr⟩]

theorem test_multi_loop_abort (mn : String → String) (sts : String → ScoreRec) :
    ∀ (names : List String) (df : DF), (∃ n ∈ names, ¬ test_recognized (mn n)) →
      test_multi_loop true mn sts names df =
        (none, ["Please specify used model (SVC, RF, XGB)"]) := by
  intro names
  induction names with
  | nil =>
    intro df h
    rcases h with ⟨n, hn, _⟩
    cases hn
  | cons n0 rest ih =>
    intro df h
    rw [test_multi_loop]
    by_cases hr : test_recognized (mn n0)
    · rw [if_neg (by simp [hr])]
      apply ih
      rcases h with ⟨n, hn, hnr⟩
      rcases List.mem_cons.mp hn with h1 | h2
      · exact absurd (h1 ▸ hr) hnr
      · exact ⟨n, h2, hnr⟩
    · rw [if_pos ⟨rfl, hr⟩]

/-- C9: on a configuration error the operation aborts at once and hands
the caller `None` together with the printed diagnostic, rather than
raising (the embeddings are total functions into a result/log pair) or
returning a partial report: an empty label-name list makes the multi-label
feature selector return `None` with "Column names necessary", and an
unrecognised model-family tag (with `spec_params` supplied) makes either
multi-label report return `None` with the model diagnostic. -/
theorem C9_config_errors_abort (skb : Mat → List ℚ → List Bool) (df_desc : Mat)
    (y_all : String → List ℚ) (names : List String) (mncv mnts : String → String)
    (scv : String → CvRec) (sts : String → ScoreRec) :
    select_best_descriptors_multi skb df_desc y_all [] =
      (none, ["Column names necessary"]) ∧
    ((∃ n ∈ names, ¬ cv_recognized (mncv n)) →
      cv_multi_report names true mncv scv =
        (none, ["Please specify used model (SVC, RF, XGB)"])) ∧
    ((∃ n ∈ names, ¬ test_recognized (mnts n)) →
      test_score_multi_report names true mnts sts =
        (none, ["Please specify used model (SVC, RF, XGB)"])) := by
  refine ⟨rfl, ?_, ?_⟩
  · intro h
    exact cv_multi_loop_abort mncv scv names _ h
  · intro h
    exact test_multi_loop_abort mnts sts names _ h

/-- Witness for C9: one label carrying an unrecognised tag aborts both
reports with the diagnostic. -/
theorem C9_config_errors_abort_witness :
    cv_multi_report ["A"] true (fun _ => "GBM") (fun _ => ⟨0, 0, 0, 0, 0, 0, 0⟩) =
      (none, ["Please specify used model (SVC, RF, XGB)"]) ∧
    test_score_multi_report ["A"] true (fun _ => "GBM") (fun _ => ⟨0, 0, 0, 0, 0, 0, 0⟩) =
      (none, ["Please specify used model (SVC, RF, XGB)"]) :=
  ⟨(C9_config_errors_abort (fun _ _ => []) [] (fun _ => []) ["A"] (fun _ => "GBM")
      (fun _ => "GBM") (fun _ => ⟨0, 0, 0, 0, 0, 0, 0⟩)
      (fun _ => ⟨0, 0, 0, 0, 0, 0, 0⟩)).2.1 ⟨"A", by simp, by decide⟩,
   (C9_config_errors_abort (fun _ _ => []) [] (fun _ => []) ["A"] (fun _ => "GBM")
      (fun _ => "GBM") (fun _ => ⟨0, 0, 0, 0, 0, 0, 0⟩)
      (fun _ => ⟨0, 0, 0, 0, 0, 0, 0⟩)).2.2 ⟨"A", by simp, by decide⟩⟩

end C9Claim

section C10Claim

/-- C10 counterexample: the claim says every non-2xx response is logged
with the offending identifier.  `requests.Response.raise_for_status`
raises only for 4xx/5xx, so a 301 response — not a 2xx — produces no
diagnostic at all: the function silently returns the newline-stripped
body. -/
theorem C10_non2xx_not_logged_counterexample :
    ¬ (200 ≤ (301 : Nat) ∧ (301 : Nat) < 300) ∧
    (get_smile_from_cid (fun _ => ⟨301, "Moved\n"⟩) "CID007").2.2 = [] ∧
    (get_smile_from_cid (fun _ => ⟨301, "Moved\n"⟩) "CID007").1 = "Moved" := by
  refine ⟨by decide, rfl, rfl⟩

/-- C10 (amended): `get_smile_from_cid` issues exactly one GET, to the URL
built from the identifier with its leading "CID" and following zeros
stripped; it always returns the response body stripped of leading and
trailing newlines and never raises; it prints a diagnostic naming the
offending identifier exactly when the status is a 4xx/5xx HTTP error (not
on every non-2xx status); and the batch mapping of `create_offside_df`
assigns every identifier a value, so processing continues past failed
lookups. -/
theorem C10_lookup_logs_and_continues (http : String → HttpResponse) (cid : String)
    (stitchs : List String) :
    (get_smile_from_cid http cid).2.1 = [pubchemUrl (trimCID cid)] ∧
    (get_smile_from_cid http cid).1 =
      stripChar (Char.ofNat 10) (http (pubchemUrl (trimCID cid))).text ∧
    ((get_smile_from_cid http cid).2.2 ≠ [] ↔
      (400 ≤ (http (pubchemUrl (trimCID cid))).status ∧
        (http (pubchemUrl (trimCID cid))).status < 600)) ∧
    ((400 ≤ (http (pubchemUrl (trimCID cid))).status ∧
        (http (pubchemUrl (trimCID cid))).status < 600) →
      (get_smile_from_cid http cid).2.2 =
        ["Problem retrieving smile for " ++ cid ++ ": " ++ "HTTPError"]) ∧
    (∀ s ∈ stitchs, (sti_to_smil http stitchs).lookup s =
      some (get_smile_from_cid http s).1) := by
  refine ⟨rfl, rfl, ?_, ?_, ?_⟩
  · by_cases h : 400 ≤ (http (pubchemUrl (trimCID cid))).status ∧
        (http (pubchemUrl (trimCID cid))).status < 600
    · simp [get_smile_from_cid, raise_for_status, h]
    · simp [get_smile_from_cid, raise_for_status, h]
  · intro h
    simp [get_smile_from_cid, raise_for_status, h]
  · intro s hs
    exact lookup_map_self (fun s => (get_smile_from_cid http s).1) stitchs s hs

/-- Witness for C10 (amended): a 404 response is logged with the offending
identifier. -/
theorem C10_lookup_logs_and_continues_witness :
    (get_smile_from_cid (fun _ => ⟨404, "err\n"⟩) "CID0042").2.2 =
      ["Problem retrieving smile for " ++ "CID0042" ++ ": " ++ "HTTPError"] :=
  (C10_lookup_logs_and_continues (fun _ => ⟨404, "err\n"⟩) "CID0042" []).2.2.2.1
    (by decide)

end C10Claim

section C5Claim

theorem setRow_index : ∀ (cells : List (String × ℚ)) (df : DF) (r : String),
    (df.setRow r cells).index = df.index := by
  intro cells
  induction cells with
  | nil => intro df r; rfl
  | cons c t ih =>
    intro df r
    show (DF.setRow (df.setCell r c.1 c.2) r t).index = df.index
    rw [ih]
    rfl

theorem setCell_columns_mem (df : DF) (r c : String) (v : ℚ) (h : c ∈ df.columns) :
    (df.setCell r c v).columns = df.columns := by
  simp [DF.setCell, h]

theorem setCell_columns_not_mem (df : DF) (r c : String) (v : ℚ) (h : c ∉ df.columns) :
    (df.setCell r c v).columns = df.columns ++ [c] := by
  simp [DF.setCell, h]

theorem setRow_columns_mem : ∀ (cells : List (String × ℚ)) (df : DF) (r : String),
    (∀ p ∈ cells, p.1 ∈ df.columns) → (df.setRow r cells).columns = df.columns := by
  intro cells
  induction cells with
  | nil => intro df r _; rfl
  | cons c t ih =>
    intro df r h
    show (DF.setRow (df.setCell r c.1 c.2) r t).columns = df.columns
    have hc : c.1 ∈ df.columns := h c (by simp)
    have hcols := setCell_columns_mem df r c.1 c.2 hc
    rw [ih (df.setCell r c.1 c.2) r (fun p hp => by rw [hcols]; exact h p (by simp [hp])),
      hcols]

theorem setCell_getCell_self (df : DF) (r c : String) (v : ℚ) :
    (df.setCell r c v).getCell r c = some v := by
  simp [DF.setCell, DF.getCell, List.lookup]

theorem setCell_getCell_ne (df : DF) (r c : String) (v : ℚ) (n c2 : String)
    (h : ¬(n = r ∧ c2 = c)) :
    (df.setCell r c v).getCell n c2 = df.getCell n c2 := by
  have hb : (((n, c2) : String × String) == (r, c)) = false := by
    apply beq_eq_false_iff_ne.mpr
    intro he
    exact h ⟨congrArg Prod.fst he, congrArg Prod.snd he⟩
  simp [DF.setCell, DF.getCell, List.lookup, hb]

theorem setRow_getCell_other : ∀ (cells : List (String × ℚ)) (df : DF) (r n c2 : String),
    (¬(n = r) ∨ c2 ∉ cells.map Prod.fst) →
    (df.setRow r cells).getCell n c2 = df.getCell n c2 := by
  intro cells
  induction cells with
  | nil => intro df r n c2 _; rfl
  | cons c t ih =>
    intro df r n c2 h
    show (DF.setRow (df.setCell r c.1 c.2) r t).getCell n c2 = df.getCell n c2
    have htail : ¬(n = r) ∨ c2 ∉ t.map Prod.fst := by
      rcases h with h | h
      · exact Or.inl h
      · exact Or.inr (fun hm => h (by simp [hm]))
    rw [ih (df.setCell r c.1 c.2) r n c2 htail]
    apply setCell_getCell_ne
    rintro ⟨rfl, rfl⟩
    rcases h with h | h
    · exact h rfl
    · exact h (by simp)

theorem setRow_getCell_self : ∀ (cells : List (String × ℚ)) (df : DF) (r : String),
    (cells.map Prod.fst).Nodup →
    ∀ p ∈ cells, (df.setRow r cells).getCell r p.1 = some p.2 := by
  intro cells
  induction cells with
  | nil => intro df r _ p hp; cases hp
  | cons c t ih =>
    intro df r hnd p hp
    show (DF.setRow (df.setCell r c.1 c.2) r t).getCell r p.1 = some p.2
    rcases List.mem_cons.mp hp with heq | hpt
    · subst heq
      rw [setRow_getCell_other t (df.setCell r p.1 p.2) r r p.1
        (Or.inr (List.nodup_cons.mp (by simpa using hnd)).1)]
      exact setCell_getCell_self df r p.1 p.2
    · exact ih (df.setCell r c.1 c.2) r (List.nodup_cons.mp (by simpa using hnd)).2 p hpt

theorem cv_row_cols_nodup (s : CvRec) : ((cv_row_assignments s).map Prod.fst).Nodup := by
  simp only [cv_row_assignments, List.map_cons, List.map_nil]
  decide

theorem test_row_cols_nodup (s : ScoreRec) :
    ((test_row_assignments s).map Prod.fst).Nodup := by
  simp only [test_row_assignments, List.map_cons, List.map_nil]
  decide

theorem cv_row_cols_mem (s : CvRec) :
    ∀ p ∈ cv_row_assignments s, p.1 ∈ cv_report_columns := by
  intro p hp
  simp only [cv_row_assignments, List.mem_cons, List.not_mem_nil, or_false] at hp
  rcases hp with rfl | rfl | rfl | rfl | rfl | rfl | rfl <;> simp [cv_report_columns]

theorem test_row_cols_mem_ext (s : ScoreRec) :
    ∀ p ∈ test_row_assignments s,
      p.1 ∈ test_report_columns ++ ["Average Prec-Rec"] := by
  intro p hp
  simp only [test_row_assignments, List.mem_cons, List.not_mem_nil, or_false] at hp
  rcases hp with rfl | rfl | rfl | rfl | rfl | rfl | rfl <;>
    simp [test_report_columns]

theorem setRow_cv_columns (df : DF) (r : String) (s : CvRec)
    (h : df.columns = cv_report_columns) :
    (df.setRow r (cv_row_assignments s)).columns = cv_report_columns := by
  rw [setRow_columns_mem (cv_row_assignments s) df r
    (fun p hp => by rw [h]; exact cv_row_cols_mem s p hp), h]

theorem setRow_test_columns_first (df : DF) (r : String) (s : ScoreRec)
    (h : df.columns = test_report_columns) :
    (df.setRow r (test_row_assignments s)).columns =
      test_report_columns ++ ["Average Prec-Rec"] := by
  have hstep : df.setRow r (test_row_assignments s) =
      (df.setRow r ((test_row_assignments s).take 6)).setCell r "Average Prec-Rec"
        (pyRound3 s.prec_rec_score) := rfl
  have hmem : ∀ p ∈ (test_row_assignments s).take 6, p.1 ∈ df.columns := by
    intro p hp
    rw [h]
    simp only [test_row_assignments, List.take, List.mem_cons, List.not_mem_nil,
      or_false] at hp
    rcases hp with rfl | rfl | rfl | rfl | rfl | rfl <;> simp [test_report_columns]
  have h6 : (df.setRow r ((test_row_assignments s).take 6)).columns =
      test_report_columns := by
    rw [setRow_columns_mem ((test_row_assignments s).take 6) df r hmem, h]
  rw [hstep, setCell_columns_not_mem _ _ _ _ (by rw [h6]; decide), h6]

theorem setRow_test_columns_later (df : DF) (r : String) (s : ScoreRec)
    (h : df.columns = test_report_columns ++ ["Average Prec-Rec"]) :
    (df.setRow r (test_row_assignments s)).columns =
      test_report_columns ++ ["Average Prec-Rec"] := by
  rw [setRow_columns_mem (test_row_assignments s) df r
    (fun p hp => by rw [h]; exact test_row_cols_mem_ext s p hp), h]

theorem cv_multi_loop_ok (sp : Bool) (mn : String → String) (scv : String → CvRec) :
    ∀ (names : List String) (df dfc : DF) (lg : List String),
      cv_multi_loop sp mn scv names df = (some dfc, lg) →
      dfc.index = df.index ∧
      (df.columns = cv_report_columns → dfc.columns = cv_report_columns) ∧
      (∀ n c2, n ∉ names → dfc.getCell n c2 = df.getCell n c2) ∧
      (∀ n ∈ names, ∀ p ∈ cv_row_assignments (scv n), dfc.getCell n p.1 = some p.2) := by
  intro names
  induction names with
  | nil =>
    intro df dfc lg h
    rw [cv_multi_loop] at h
    injection h with h1 h2
    injection h1 with h1
    subst h1
    exact ⟨rfl, fun hc => hc, fun n c2 _ => rfl, fun n hn => absurd hn (by simp)⟩
  | cons n0 rest ih =>
    intro df dfc lg h
    rw [cv_multi_loop] at h
    by_cases hr : sp = true ∧ ¬ cv_recognized (mn n0)
    · rw [if_pos hr] at h
      injection h with h1 h2
      cases h1
    · rw [if_neg hr] at h
      obtain ⟨hidx, hcols, hpres, hcells⟩ :=
        ih (df.setRow n0 (cv_row_assignments (scv n0))) dfc lg h
      refine ⟨hidx.trans (setRow_index _ df n0), ?_, ?_, ?_⟩
      · intro hc
        exact hcols (setRow_cv_columns df n0 (scv n0) hc)
      · intro n c2 hn
        rw [hpres n c2 (fun hm => hn (by simp [hm]))]
        exact setRow_getCell_other _ df n0 n c2 (Or.inl (fun he => hn (by simp [he])))
      · intro n hn p hp
        by_cases hnr : n ∈ rest
        · exact hcells n hnr p hp
        · have hn0 : n = n0 := by
            rcases List.mem_cons.mp hn with h1 | h2
            · exact h1
            · exact absurd h2 hnr
          subst hn0
          rw [hpres n p.1 hnr]
          exact setRow_getCell_self (cv_row_assignments (scv n)) df n
            (cv_row_cols_nodup (scv n)) p hp

theorem test_multi_loop_ok (sp : Bool) (mn : String → String) (sts : String → ScoreRec) :
    ∀ (names : List String) (df dfc : DF) (lg : List String),
      test_multi_loop sp mn sts names df = (some dfc, lg) →
      dfc.index = df.index ∧
      (df.columns = test_report_columns →
        (names = [] → dfc.columns = test_report_columns) ∧
        (names ≠ [] → dfc.columns = test_report_columns ++ ["Average Prec-Rec"])) ∧
      (df.columns = test_report_columns ++ ["Average Prec-Rec"] →
        dfc.columns = test_report_columns ++ ["Average Prec-Rec"]) ∧
      (∀ n c2, n ∉ names → dfc.getCell n c2 = df.getCell n c2) ∧
      (∀ n ∈ names, ∀ p ∈ test_row_assignments (sts n), dfc.getCell n p.1 = some p.2) := by
  intro names
  induction names with
  | nil =>
    intro df dfc lg h
    rw [test_multi_loop] at h
    injection h with h1 h2
    injection h1 with h1
    subst h1
    exact ⟨rfl, fun hc => ⟨fun _ => hc, fun hne => absurd rfl hne⟩, fun hc => hc,
      fun n c2 _ => rfl, fun n hn => absurd hn (by simp)⟩
  | cons n0 rest ih =>
    intro df dfc lg h
    rw [test_multi_loop] at h
    by_cases hr : sp = true ∧ ¬ test_recognized (mn n0)
    · rw [if_pos hr] at h
      injection h with h1 h2
      cases h1
    · rw [if_neg hr] at h
      obtain ⟨hidx, hcT, hcTA, hpres, hcells⟩ :=
        ih (df.setRow n0 (test_row_assignments (sts n0))) dfc lg h
      refine ⟨hidx.trans (setRow_index _ df n0), ?_, ?_, ?_, ?_⟩
      · intro hc
        refine ⟨fun he => absurd he (by simp), fun _ => ?_⟩
        exact hcTA (setRow_test_columns_first df n0 (sts n0) hc)
      · intro hc
        exact hcTA (setRow_test_columns_later df n0 (sts n0) hc)
      · intro n c2 hn
        rw [hpres n c2 (fun hm => hn (by simp [hm]))]
        exact setRow_getCell_other _ df n0 n c2 (Or.inl (fun he => hn (by simp [he])))
      · intro n hn p hp
        by_cases hnr : n ∈ rest
        · exact hcells n hnr p hp
        · have hn0 : n = n0 := by
            rcases List.mem_cons.mp hn with h1 | h2
            · exact h1
            · exact absurd h2 hnr
          subst hn0
          rw [hpres n p.1 hnr]
          exact setRow_getCell_self (test_row_assignments (sts n)) df n
            (test_row_cols_nodup (sts n)) p hp

theorem cv_columns_covered (s : CvRec) :
    ∀ c ∈ cv_report_columns, ∃ v, (c, v) ∈ cv_row_assignments s := by
  intro c hc
  simp only [cv_report_columns, List.mem_cons, List.not_mem_nil, or_false] at hc
  rcases hc with rfl | rfl | rfl | rfl | rfl | rfl | rfl
  · exact ⟨pyRound3 s.f1_score, by simp [cv_row_assignments]⟩
  · exact ⟨pyRound3 s.f1_micr_score, by simp [cv_row_assignments]⟩
  · exact ⟨pyRound3 s.f1_macro_score, by simp [cv_row_assignments]⟩
  · exact ⟨pyRound3 s.auc_score, by simp [cv_row_assignments]⟩
  · exact ⟨pyRound3 s.rec_score, by simp [cv_row_assignments]⟩
  · exact ⟨pyRound3 s.prec_score, by simp [cv_row_assignments]⟩
  · exact ⟨pyRound3 s.avp_score, by simp [cv_row_assignments]⟩

theorem test_columns_covered (s : ScoreRec) :
    ∀ c ∈ test_report_columns ++ ["Average Prec-Rec"],
      ∃ v, (c, v) ∈ test_row_assignments s := by
  intro c hc
  simp only [test_report_columns, List.mem_append, List.mem_cons, List.mem_singleton,
    List.not_mem_nil, or_false] at hc
  rcases hc with ((rfl | rfl | rfl | rfl | rfl | rfl) | rfl)
  · exact ⟨pyRound3 s.f1_s_score, by simp [test_row_assignments]⟩
  · exact ⟨pyRound3 s.f1_micr_score, by simp [test_row_assignments]⟩
  · exact ⟨pyRound3 s.f1_macro_score, by simp [test_row_assignments]⟩
  · exact ⟨pyRound3 s.auc_score, by simp [test_row_assignments]⟩
  · exact ⟨pyRound3 s.rec_score, by simp [test_row_assignments]⟩
  · exact ⟨pyRound3 s.prec_score, by simp [test_row_assignments]⟩
  · exact ⟨pyRound3 s.prec_rec_score, by simp [test_row_assignments]⟩

/-- C5 counterexample: at a single label the two report modes declare
different column-name lists — the cross-validated table's seventh column
is "Average Precision" while the held-out table's is "Average Prec-Rec"
(added by `.loc` enlargement since it is absent from the declared
columns), so the claimed identical column names across modes fail. -/
theorem C5_column_names_differ_counterexample :
    ((cv_multi_report ["a"] false (fun _ => "") (fun _ => ⟨0, 0, 0, 0, 0, 0, 0⟩)).1.map
        DF.columns) ≠
      ((test_score_multi_report ["a"] false (fun _ => "")
        (fun _ => ⟨0, 0, 0, 0, 0, 0, 0⟩)).1.map DF.columns) := by
  decide

/-- C5 (amended): each report mode yields exactly one row per label
(`index = out_names`), every declared column of every row holds the
numeric `round(float(·), 3)` of the corresponding metric, and the first
six columns carry identical names and meanings in both modes; but the
average-precision column is "Average Precision" in the cross-validated
report and "Average Prec-Rec" in the held-out report, so the full column
lists of the two modes differ. -/
theorem C5_report_shapes (names : List String) (spc spt : Bool)
    (mncv mnts : String → String) (scv : String → CvRec) (sts : String → ScoreRec) :
    (∀ dfc lg, cv_multi_report names spc mncv scv = (some dfc, lg) →
      dfc.index = names ∧ dfc.columns = cv_report_columns ∧
      (∀ n ∈ names, ∀ p ∈ cv_row_assignments (scv n), dfc.getCell n p.1 = some p.2) ∧
      (∀ n ∈ names, ∀ c ∈ dfc.columns, (dfc.getCell n c).isSome = true)) ∧
    (∀ dft lg, test_score_multi_report names spt mnts sts = (some dft, lg) →
      dft.index = names ∧
      (names = [] → dft.columns = test_report_columns) ∧
      (names ≠ [] → dft.columns = test_report_columns ++ ["Average Prec-Rec"]) ∧
      (∀ n ∈ names, ∀ p ∈ test_row_assignments (sts n), dft.getCell n p.1 = some p.2) ∧
      (∀ n ∈ names, ∀ c ∈ dft.columns, (dft.getCell n c).isSome = true)) ∧
    cv_report_columns.take 6 = test_report_columns ∧
    cv_report_columns ≠ test_report_columns ++ ["Average Prec-Rec"] := by
  refine ⟨?_, ?_, by decide, by decide⟩
  · intro dfc lg h
    obtain ⟨hidx, hcols, _, hcells⟩ :=
      cv_multi_loop_ok spc mncv scv names (DF.init cv_report_columns names) dfc lg h
    have hcols2 := hcols rfl
    refine ⟨hidx, hcols2, hcells, ?_⟩
    intro n hn c hc
    rw [hcols2] at hc
    obtain ⟨v, hv⟩ := cv_columns_covered (scv n) c hc
    rw [show c = (c, v).1 from rfl, hcells n hn (c, v) hv]
    rfl
  · intro dft lg h
    obtain ⟨hidx, hcT, _, _, hcells⟩ :=
      test_multi_loop_ok spt mnts sts names (DF.init test_report_columns names) dft lg h
    obtain ⟨hemp, hne⟩ := hcT rfl
    refine ⟨hidx, hemp, hne, hcells, ?_⟩
    intro n hn c hc
    have hnames : names ≠ [] := by
      intro he
      subst he
      cases hn
    rw [hne hnames] at hc
    obtain ⟨v, hv⟩ := test_columns_covered (sts n) c hc
    rw [show c = (c, v).1 from rfl, hcells n hn (c, v) hv]
    rfl

/-- Witness for C5 (amended) at a single concrete label. -/
theorem C5_report_shapes_witness :
    ∃ dfc lg, cv_multi_report ["a"] false (fun _ => "")
        (fun _ => (⟨0, 0, 0, 0, 0, 0, 0⟩ : CvRec)) = (some dfc, lg) ∧
      dfc.index = ["a"] ∧ dfc.columns = cv_report_columns := by
  have hsome : (cv_multi_report ["a"] false (fun _ => "")
      (fun _ => (⟨0, 0, 0, 0, 0, 0, 0⟩ : CvRec))).1.isSome = true := by decide
  rcases h : cv_multi_report ["a"] false (fun _ => "")
      (fun _ => (⟨0, 0, 0, 0, 0, 0, 0⟩ : CvRec)) with ⟨o, lg⟩
  rcases o with _ | dfc
  · rw [h] at hsome
    cases hsome
  · have hr := (C5_report_shapes ["a"] false false (fun _ => "") (fun _ => "")
      (fun _ => (⟨0, 0, 0, 0, 0, 0, 0⟩ : CvRec))
      (fun _ => (⟨0, 0, 0, 0, 0, 0, 0⟩ : ScoreRec))).1 dfc lg h
    exact ⟨dfc, lg, rfl, hr.1, hr.2.1⟩

end C5Claim

end MLProcess
